import Mathlib

/-
Verification of the prediction-aggregator trading core against its design
notes.  The Go source computes on float64; this development embeds the same
functions over exact rationals (ℚ), with Go float-to-int conversion modelled
as truncation toward zero and Sprintf rendering modelled as correctly rounded
decimal output (round to nearest, ties to even), which is what Go fmt
produces for the exact value of its argument.
-/

namespace PA

unseal Rat.mul Rat.add Rat.sub Rat.inv

/-- Computable floor of a rational, as flooring division of numerator by
denominator. -/
def floorQ (q : ℚ) : ℤ := q.num.fdiv (q.den : ℤ)

/-- Truncation toward zero, the semantics of a Go float64-to-int conversion:
floor for non-negative values, ceiling for negative ones. -/
def truncQ (q : ℚ) : ℤ :=
  if 0 ≤ q then floorQ q else -floorQ (-q)

/-- Embeds pow10 from pkg/exchange/polymarket/clob/order.go: repeated
multiplication by 10. -/
def pow10 (n : ℕ) : ℚ := 10 ^ n

/-- Embeds roundNormal from order.go: round half up at d decimal places,
via truncation of value*10^d + 0.5. -/
def roundNormal (v : ℚ) (d : ℕ) : ℚ :=
  (truncQ (v * pow10 d + 1/2) : ℚ) / pow10 d

/-- Embeds roundDown from order.go: truncate at d decimal places. -/
def roundDown (v : ℚ) (d : ℕ) : ℚ :=
  (truncQ (v * pow10 d) : ℚ) / pow10 d

/-- Embeds roundUp from order.go: truncate at d decimal places and add one
unit in the last place. -/
def roundUp (v : ℚ) (d : ℕ) : ℚ :=
  ((truncQ (v * pow10 d) + 1 : ℤ) : ℚ) / pow10 d

/-- Round to the nearest integer, ties to even.  This is how Go fmt renders
a value with a fixed number of decimals: the digits printed are the
correctly rounded scaled value. -/
def roundHalfEven (q : ℚ) : ℤ :=
  if q - (floorQ q : ℚ) < 1/2 then floorQ q
  else if 1/2 < q - (floorQ q : ℚ) then floorQ q + 1
  else if floorQ q % 2 = 0 then floorQ q else floorQ q + 1

/-- Largest k ≤ 10 such that 10^k divides n; for n = 0 the answer is 10.
Models counting the trailing zeros of the ten rendered decimal digits. -/
def countTrailing (n : ℤ) : ℕ :=
  if n = 0 then 10
  else (List.range 11).foldl (fun acc k => if (10 : ℤ) ^ k ∣ n then k else acc) 0

/-- Embeds decimalPlaces from order.go: the value is rendered with
Sprintf at 10 decimal places (correctly rounded), trailing zeros of the
fractional part are trimmed, and the remaining length is returned. -/
def decimalPlaces (v : ℚ) : ℕ :=
  10 - countTrailing (roundHalfEven (v * 10 ^ (10 : ℕ)))

/-- Embeds toUnits from order.go.  The Go code renders the value with
Sprintf at 6 decimal places, splits at the decimal point, pads or cuts the
fractional digits to width 6, concatenates the digit strings and parses the
result.  For every value this reconstructs exactly the correctly rounded
scaled integer, so the function is the half-to-even rounding of
value * 10^6. -/
def toUnits (v : ℚ) : ℤ := roundHalfEven (v * 10 ^ (6 : ℕ))

/-- Embeds the Side string type of clob/types.go ("BUY" / "SELL"). -/
inductive Side
| buy
| sell
deriving DecidableEq, Repr

/-- Embeds the TickSize string type of clob/types.go; other covers every
string besides the four listed constants (a Go map lookup on it yields the
zero value). -/
inductive TickSize
| t01
| t001
| t0001
| t00001
| other
deriving DecidableEq, Repr

/-- Embeds RoundConfig from order.go. -/
structure RoundConfig where
  price : ℕ
  size : ℕ
  amount : ℕ
deriving DecidableEq, Repr

/-- Embeds the roundingConfigs map from order.go. -/
def roundingConfigs : TickSize → RoundConfig
| .t01 => ⟨1, 2, 3⟩
| .t001 => ⟨2, 2, 4⟩
| .t0001 => ⟨3, 2, 5⟩
| .t00001 => ⟨4, 2, 6⟩
| .other => ⟨0, 0, 0⟩

/-- Embeds the config lookup at the top of calculateOrderAmounts: a missing
tick size yields the zero-valued config, detected by price = 0 and replaced
with the 0.01 profile. -/
def configFor (tickSize : TickSize) : RoundConfig :=
  let config := roundingConfigs tickSize
  if config.price = 0 then roundingConfigs .t001 else config

/-- Helper naming the re-rounding block that calculateOrderAmounts applies
to a raw amount whose decimal-place count exceeds the amount limit: first a
round up at limit+4 decimals, then, if still over the limit, a round down
at the limit. -/
def adjustAmount (raw : ℚ) (amount : ℕ) : ℚ :=
  if decimalPlaces raw > amount then
    let up := roundUp raw (amount + 4)
    if decimalPlaces up > amount then roundDown up amount else up
  else raw

/-- Embeds calculateOrderAmounts from order.go, lines 269-302, returning
the maker and taker amounts in integer base units. -/
def calculateOrderAmounts (side : Side) (size price : ℚ) (tickSize : TickSize) :
    ℤ × ℤ :=
  let config := configFor tickSize
  let rawPrice := roundNormal price config.price
  match side with
  | .buy =>
    let rawTakerAmt := roundDown size config.size
    let rawMakerAmt0 := rawTakerAmt * rawPrice
    let rawMakerAmt :=
      if decimalPlaces rawMakerAmt0 > config.amount then
        let up := roundUp rawMakerAmt0 (config.amount + 4)
        if decimalPlaces up > config.amount then roundDown up config.amount
        else up
      else rawMakerAmt0
    (toUnits rawMakerAmt, toUnits rawTakerAmt)
  | .sell =>
    let rawMakerAmt := roundDown size config.size
    let rawTakerAmt0 := rawMakerAmt * rawPrice
    let rawTakerAmt :=
      if decimalPlaces rawTakerAmt0 > config.amount then
        let up := roundUp rawTakerAmt0 (config.amount + 4)
        if decimalPlaces up > config.amount then roundDown up config.amount
        else up
      else rawTakerAmt0
    (toUnits rawMakerAmt, toUnits rawTakerAmt)

/-- Observable fields of a built order relevant to amount validation:
BuildOrder in order.go constructs the SignedOrder directly from the result
of calculateOrderAmounts with no check on the amounts; salt, addresses and
signature are omitted here (randomness and elliptic-curve crypto). -/
structure BuiltOrder where
  makerAmount : ℤ
  takerAmount : ℤ
  side : ℕ
deriving DecidableEq, Repr

/-- Embeds the deterministic amount part of BuildOrder, order.go lines
66-115: amounts come straight from calculateOrderAmounts, side 0 for BUY
and 1 for SELL; the function is total, the only error return in the source
is from the signing step. -/
def buildOrderCore (side : Side) (size price : ℚ) (tickSize : TickSize) :
    BuiltOrder :=
  let amounts := calculateOrderAmounts side size price tickSize
  { makerAmount := amounts.1
    takerAmount := amounts.2
    side := if side = .sell then 1 else 0 }

/-- Embeds a book entry of common.OrderBookSnapshot: price and size as
exact decimal strings. -/
structure BookEntry where
  price : String
  size : String
deriving DecidableEq, Repr

/-- Embeds common.OrderBookSnapshot: lists of bid and ask entries. -/
structure Snapshot where
  bids : List BookEntry
  asks : List BookEntry
deriving DecidableEq, Repr

/-- Embeds common.PriceChangeEvent: side, price and size strings. -/
structure PriceChange where
  side : String
  price : String
  size : String
deriving DecidableEq, Repr

/-- Side map of an order book, price string to size string, modelling the
Go map of part_003. -/
def SideMap : Type := String → Option String

/-- Empty side map, modelling a freshly made Go map. -/
def SideMap.empty : SideMap := fun _ => none

/-- Map update, modelling a Go map assignment. -/
def SideMap.insert (m : SideMap) (price size : String) : SideMap :=
  fun p => if p = price then some size else m p

/-- Map deletion, modelling a Go delete call. -/
def SideMap.erase (m : SideMap) (price : String) : SideMap :=
  fun p => if p = price then none else m p

/-- Loading of one side during ApplySnapshot in part_003: entries are
inserted in order, skipping those whose size is the string "0". -/
def loadSide (entries : List BookEntry) : SideMap :=
  entries.foldl
    (fun m e => if e.size ≠ "0" then m.insert e.price e.size else m)
    SideMap.empty

/-- Embeds the OrderBook state of part_003: one side map for bids and one
for asks. -/
structure OrderBook where
  bids : SideMap
  asks : SideMap

/-- Embeds OrderBook.ApplySnapshot, part_003 lines 51-66: both side maps
are rebuilt wholesale from the snapshot, dropping zero-size entries; the
previous state is not consulted. -/
def OrderBook.applySnapshot (_ob : OrderBook) (s : Snapshot) : OrderBook :=
  { bids := loadSide s.bids, asks := loadSide s.asks }

/-- Embeds OrderBook.ApplyPriceChange, part_003 lines 68-84: a BUY delta
touches the bids map, any other side touches the asks map; size "0"
deletes the price level, any other size upserts it. -/
def OrderBook.applyPriceChange (ob : OrderBook) (e : PriceChange) : OrderBook :=
  if e.side = "BUY" then
    if e.size = "0" then { ob with bids := ob.bids.erase e.price }
    else { ob with bids := ob.bids.insert e.price e.size }
  else
    if e.size = "0" then { ob with asks := ob.asks.erase e.price }
    else { ob with asks := ob.asks.insert e.price e.size }

/-- Embeds getPeriodDuration from part_003, in seconds; the Go switch
defaults to 15 minutes for an unknown period string. -/
def getPeriodDurationSec (period : String) : ℕ :=
  if period = "15m" then 900
  else if period = "1h" then 3600
  else if period = "4h" then 14400
  else if period = "daily" then 86400
  else 900

/-- Embeds calcCurrentRoundStart from part_003 lines 182-194, expressed on
the seconds-of-day of the UTC wall clock: daily periods snap to midnight
(0 seconds into the same UTC date), other periods truncate the
seconds-of-day down to a multiple of the period length; the Go code then
rebuilds the time on the same year, month and day. -/
def calcRoundStartSec (period : String) (hour minute second : ℕ) : ℕ :=
  if period = "daily" then 0
  else
    let periodSec := getPeriodDurationSec period
    let currentSec := hour * 3600 + minute * 60 + second
    currentSec / periodSec * periodSec

/-- Character-wise upper casing, the effect of strings.ToUpper on ASCII
side labels. -/
def toUpperStr (s : String) : String :=
  String.mk (s.data.map Char.toUpper)

/-- Embeds AlignPrice from part_007 lines 129-138: a non-positive tick size
is replaced by 0.01; the price is divided into ticks, truncated down for a
BUY (up to a 0.9999 fudge for the other side) and scaled back. -/
def AlignPrice (price tickSize : ℚ) (side : String) : ℚ :=
  let t := if tickSize ≤ 0 then 1/100 else tickSize
  let ticks := price / t
  if toUpperStr side = "BUY" then (truncQ ticks : ℚ) * t
  else (truncQ (ticks + 9999/10000) : ℚ) * t

/-- Embeds roundTo from part_011: round half up at the given number of
decimal places, through a float-to-int truncation. -/
def roundTo (v : ℚ) (decimals : ℕ) : ℚ :=
  (truncQ (v * 10 ^ decimals + 1/2) : ℚ) / 10 ^ decimals

/-- Embeds the leg pricing of Strategy.Execute, part_011 lines 289-290:
the first leg is priced one tick above best bid aligned down with side
BUY, the second at 1 minus that price rounded to 4 decimals. -/
def legPrices (bestBid tickSize : ℚ) : ℚ × ℚ :=
  let yesBuyPrice := AlignPrice (bestBid + tickSize) tickSize "BUY"
  (yesBuyPrice, roundTo (1 - yesBuyPrice) 4)

/-- Digit-string value: the digits read left to right as a natural number,
or none when a non-digit occurs.  Supports the decimal parsing model of
strconv.ParseFloat. -/
def digitsVal (cs : List Char) : Option ℕ :=
  cs.foldl
    (fun acc c =>
      match acc with
      | none => none
      | some n => if c.isDigit then some (n * 10 + (c.toNat - 48)) else none)
    (some 0)

/-- Models strconv.ParseFloat as used in part_011 (parseFloat helper,
which discards the error and so yields 0 on malformed input): plain
decimal numerals with an optional sign and at most one point parse to
their exact value, everything else yields 0.  Exponent and hexadecimal
float forms do not occur in the feed and are not modelled. -/
def parseFloatQ (s : String) : ℚ :=
  let signed : ℚ × List Char :=
    match s.data with
    | '-' :: rest => (-1, rest)
    | '+' :: rest => (1, rest)
    | cs => (1, cs)
  match (signed.2.splitOn '.') with
  | [ip] =>
    match digitsVal ip with
    | some n => signed.1 * n
    | none => 0
  | [ip, fp] =>
    match digitsVal ip, digitsVal fp with
    | some n, some f => signed.1 * ((n : ℚ) + (f : ℚ) / 10 ^ fp.length)
    | _, _ => 0
  | _ => 0

/-- Environment responses for one iteration of the order loop of
Strategy.Execute, part_011 lines 270-364: whether the re-fetched book
still meets the spread requirement (checked only on retries), whether the
computed trade amount clears the tick-size minimum (the balance check),
the submission outcome of each leg (an order id, or none on error) and
the size-matched strings the fill poll returns. -/
structure Attempt where
  spreadOK : Bool
  balanceOK : Bool
  submitA : Option String
  submitB : Option String
  filledA : String
  filledB : String
deriving DecidableEq, Repr

/-- Externally visible order actions of one run: a submission of the two
legs (each possibly failed) and a cancellation of both legs. -/
inductive Action
| submit (a b : Option String)
| cancel (a b : String)
deriving DecidableEq, Repr

/-- Terminal outcome of the order loop. -/
inductive Outcome
| success (filledA filledB : String)
| insufficientBalance
| exhausted
deriving DecidableEq, Repr

/-- Embeds the order loop of Strategy.Execute, part_011 lines 270-364, one
list entry per permitted attempt (so the list length plays MaxRetries).
On a retry a failed spread re-check skips the attempt; an insufficient
trade amount returns at once; after submission, an error on either leg
abandons the attempt without polling or cancelling; a positive parsed
fill on either leg returns success with the literal size-matched strings;
otherwise both orders are cancelled and the loop continues. -/
def execLoop (isRetry : Bool) : List Attempt → List Action × Outcome
| [] => ([], .exhausted)
| a :: rest =>
  if isRetry ∧ a.spreadOK = false then execLoop true rest
  else if a.balanceOK = false then ([], .insufficientBalance)
  else
    match a.submitA, a.submitB with
    | some ia, some ib =>
      if 0 < parseFloatQ a.filledA ∨ 0 < parseFloatQ a.filledB then
        ([.submit (some ia) (some ib)], .success a.filledA a.filledB)
      else
        let r := execLoop true rest
        (.submit (some ia) (some ib) :: .cancel ia ib :: r.1, r.2)
    | oa, ob =>
      let r := execLoop true rest
      (.submit oa ob :: r.1, r.2)

/-- Embeds the Result record of part_011 (Index and Duration, which carry
the account index and wall-clock time, are omitted). -/
structure StrategyResult where
  success : Bool
  filledA : String
  filledB : String
  error : String
deriving DecidableEq, Repr

/-- The terminal error text of the order loop, Sprintf of the retry
count. -/
def maxRetriesMsg (n : ℕ) : String :=
  "达到最大重试次数 " ++ toString n ++ "，未能成交"

/-- Embeds the tail of Strategy.Execute: runs the order loop over the
scripted attempts and builds the returned Result. -/
def strategyExecute (script : List Attempt) : StrategyResult :=
  match (execLoop false script).2 with
  | .success fa fb => ⟨true, fa, fb, ""⟩
  | .insufficientBalance => ⟨false, "", "", "余额不足"⟩
  | .exhausted => ⟨false, "", "", maxRetriesMsg script.length⟩

/-- The order actions performed during one run of the order loop. -/
def strategyActions (script : List Attempt) : List Action :=
  (execLoop false script).1

/-- Embeds the Connection state of wss/client.go relevant to Close:
intentional-close flag, heartbeat ticker and reconnect timer presence,
socket presence, the connected flag and whether the stop channel has been
closed. -/
structure ConnState where
  isConnected : Bool
  isIntentionalClose : Bool
  sockOpen : Bool
  pingActive : Bool
  reconnectActive : Bool
  stopChClosed : Bool
deriving DecidableEq, Repr

/-- A Connection as NewConnection returns it: nothing running, stop
channel open. -/
def ConnState.fresh : ConnState := ⟨false, false, false, false, false, false⟩

/-- Embeds Connection.Close, wss/client.go lines 234-251, step by step:
set the intentional-close flag, stop heartbeat and reconnect timers,
release the socket, clear the connected flag, then close the stop
channel.  Closing an already closed Go channel is a runtime panic,
modelled as none. -/
def ConnState.close (c : ConnState) : Option ConnState :=
  let c := { c with isIntentionalClose := true }
  let c := { c with pingActive := false }
  let c := { c with reconnectActive := false }
  let c := { c with sockOpen := false, isConnected := false }
  if c.stopChClosed then none
  else some { c with stopChClosed := true }

lemma floorQ_eq_floor (q : ℚ) : floorQ q = ⌊q⌋ := by
  rw [Rat.floor_def]
  exact Int.fdiv_eq_ediv _ (Int.ofNat_nonneg _)

lemma truncQ_eq_floor {q : ℚ} (h : 0 ≤ q) : truncQ q = ⌊q⌋ := by
  rw [truncQ, if_pos h, floorQ_eq_floor]

lemma roundHalfEven_bounds (q : ℚ) :
    floorQ q ≤ roundHalfEven q ∧ roundHalfEven q ≤ floorQ q + 1 := by
  unfold roundHalfEven
  split_ifs <;> omega

/-- Claim C8: ApplySnapshot replaces both side maps wholesale without
reading the previous book state, so applying the same snapshot twice
yields the book of a single application. -/
theorem C8_snapshot_idempotent (ob : OrderBook) (s : Snapshot) :
    (ob.applySnapshot s).applySnapshot s = ob.applySnapshot s := rfl

lemma sideMap_insert_no_zero {m : SideMap} (hm : ∀ p, m p ≠ some "0")
    {price size : String} (hs : size ≠ "0") :
    ∀ p, (m.insert price size) p ≠ some "0" := by
  intro p
  unfold SideMap.insert
  by_cases hp : p = price
  · rw [if_pos hp]
    exact fun h => hs (Option.some.inj h)
  · rw [if_neg hp]
    exact hm p

lemma sideMap_erase_no_zero {m : SideMap} (hm : ∀ p, m p ≠ some "0")
    {price : String} : ∀ p, (m.erase price) p ≠ some "0" := by
  intro p
  unfold SideMap.erase
  by_cases hp : p = price
  · rw [if_pos hp]
    exact fun h => Option.noConfusion h
  · rw [if_neg hp]
    exact hm p

lemma foldl_load_no_zero (l : List BookEntry) (m : SideMap)
    (hm : ∀ p, m p ≠ some "0") :
    ∀ p, (l.foldl
      (fun m e => if e.size ≠ "0" then m.insert e.price e.size else m) m) p
        ≠ some "0" := by
  induction l generalizing m with
  | nil => exact hm
  | cons e l ih =>
    refine ih _ ?_
    by_cases hs : e.size = "0"
    · simpa [hs] using hm
    · simpa [hs] using sideMap_insert_no_zero hm hs

lemma loadSide_no_zero (entries : List BookEntry) (p : String) :
    loadSide entries p ≠ some "0" :=
  foldl_load_no_zero entries SideMap.empty (fun _ h => Option.noConfusion h) p

lemma applyPriceChange_no_zero (ob : OrderBook) (e : PriceChange)
    (hb : ∀ p, ob.bids p ≠ some "0") (ha : ∀ p, ob.asks p ≠ some "0") :
    (∀ p, (ob.applyPriceChange e).bids p ≠ some "0") ∧
    (∀ p, (ob.applyPriceChange e).asks p ≠ some "0") := by
  unfold OrderBook.applyPriceChange
  by_cases hside : e.side = "BUY" <;> by_cases hz : e.size = "0" <;>
    simp only [hside, hz, ite_true, ite_false, if_true, if_false]
  · exact ⟨sideMap_erase_no_zero hb, ha⟩
  · exact ⟨sideMap_insert_no_zero hb hz, ha⟩
  · exact ⟨hb, sideMap_erase_no_zero ha⟩
  · exact ⟨hb, sideMap_insert_no_zero ha hz⟩

/-- Claim C7: after a snapshot and an arbitrary sequence of price-change
deltas, no side map holds an entry of size "0": the snapshot load skips
zero-size entries and a zero-size delta deletes its price level. -/
theorem C7_no_zero_entries (ob : OrderBook) (s : Snapshot)
    (ds : List PriceChange) (p : String) :
    (ds.foldl OrderBook.applyPriceChange (ob.applySnapshot s)).bids p
        ≠ some "0" ∧
    (ds.foldl OrderBook.applyPriceChange (ob.applySnapshot s)).asks p
        ≠ some "0" := by
  suffices h : ∀ (ds : List PriceChange) (b : OrderBook),
      (∀ q, b.bids q ≠ some "0") → (∀ q, b.asks q ≠ some "0") →
      (∀ q, (ds.foldl OrderBook.applyPriceChange b).bids q ≠ some "0") ∧
      (∀ q, (ds.foldl OrderBook.applyPriceChange b).asks q ≠ some "0") by
    obtain ⟨h1, h2⟩ := h ds (ob.applySnapshot s)
      (fun q => loadSide_no_zero s.bids q) (fun q => loadSide_no_zero s.asks q)
    exact ⟨h1 p, h2 p⟩
  intro ds
  induction ds with
  | nil => exact fun b hb ha => ⟨hb, ha⟩
  | cons e ds ih =>
    intro b hb ha
    obtain ⟨hb2, ha2⟩ := applyPriceChange_no_zero b e hb ha
    exact ih _ hb2 ha2

/-- Claim C9: the round start truncates the wall clock to the period
boundary: 10:07:33 UTC with a 15 minute period starts at second 36000,
which is 10:00:00 of the same day; a daily period starts at second 0,
which is midnight of the same UTC date; in general the 15 minute round
start is the largest multiple of 900 seconds not exceeding the
seconds-of-day. -/
theorem C9_round_start_alignment :
    calcRoundStartSec "15m" 10 7 33 = 36000
    ∧ (∀ h m s : ℕ, calcRoundStartSec "daily" h m s = 0)
    ∧ (∀ h m s : ℕ,
        calcRoundStartSec "15m" h m s ≤ h * 3600 + m * 60 + s
        ∧ h * 3600 + m * 60 + s < calcRoundStartSec "15m" h m s + 900
        ∧ 900 ∣ calcRoundStartSec "15m" h m s) := by
  refine ⟨by decide, fun _ _ _ => rfl, fun h m s => ?_⟩
  have e : calcRoundStartSec "15m" h m s = (h * 3600 + m * 60 + s) / 900 * 900 :=
    rfl
  rw [e]
  omega

/-- Claim C10, code bug: a first Close succeeds from the fresh state and
from a connected state, setting the intentional-close flag, stopping the
heartbeat and releasing the socket; but a second Close reaches the close
of the already closed stop channel, a Go runtime panic, modelled as none
— so Close is not idempotent as the specification requires. -/
theorem C10_close_not_idempotent :
    ConnState.fresh.close = some ⟨false, true, false, false, false, true⟩
    ∧ (ConnState.close ⟨true, false, true, true, false, false⟩ =
        some ⟨false, true, false, false, false, true⟩)
    ∧ ConnState.fresh.close.bind ConnState.close = none := by
  decide

/-- Claim C2, counterexample: toUnits renders with six decimal places,
which rounds to nearest rather than truncating: the value 0.9999996
converts to 1000000 base units although the floor of its scaling is
999999. -/
theorem C2_counterexample :
    toUnits (9999996/10000000) = 1000000
    ∧ floorQ ((9999996/10000000 : ℚ) * 10 ^ (6 : ℕ)) = 999999 := by
  decide

/-- Claim C2, amended: conversion to base units is the fixed-six-decimal
rendering of the value, hence the half-to-even rounding of value scaled
by a million; it never falls below the floor of the scaling and can
exceed it by at most one. -/
theorem C2_units_rounding (v : ℚ) (_hv : 0 ≤ v) :
    toUnits v = roundHalfEven (v * 10 ^ (6 : ℕ))
    ∧ floorQ (v * 10 ^ (6 : ℕ)) ≤ toUnits v
    ∧ toUnits v ≤ floorQ (v * 10 ^ (6 : ℕ)) + 1 :=
  ⟨rfl, (roundHalfEven_bounds _).1, (roundHalfEven_bounds _).2⟩

/-- Witness for C2_units_rounding at the value 1.25. -/
theorem C2_units_rounding_witness :
    toUnits (5/4) = roundHalfEven ((5/4 : ℚ) * 10 ^ (6 : ℕ))
    ∧ floorQ ((5/4 : ℚ) * 10 ^ (6 : ℕ)) ≤ toUnits (5/4)
    ∧ toUnits (5/4) ≤ floorQ ((5/4 : ℚ) * 10 ^ (6 : ℕ)) + 1 :=
  C2_units_rounding (5/4) (by norm_num)

/-- Claim C1, counterexample: for tick size 0.01 the raw maker amount of
the BUY order with size 10.126 and price 0.4567 is 10.12 times 0.46,
whose decimal-place count is exactly the four-place amount limit, so it
does not exceed the limit and neither the round-up nor the round-down is
attempted. -/
theorem C1_counterexample :
    ¬ decimalPlaces (roundDown (10126/1000) 2 * roundNormal (4567/10000) 2)
        > (configFor .t001).amount := by
  decide

/-- Claim C1, amended: truncating 10.126 to 10.12 and rounding 0.4567 half
up to 0.46 gives the raw maker amount 4.6552 with exactly four decimal
places, within the four-place limit, so the amounts convert directly to
4655200 and 10120000 base units; structurally, the BUY maker amount is
always the unit conversion of the re-rounding helper applied to the raw
product, and whenever the raw amount does exceed the limit the helper
tries the round up at limit plus four decimals first and falls back to
the round down at the limit. -/
theorem C1_rounding_pipeline :
    (calculateOrderAmounts .buy (10126/1000) (4567/10000) .t001 =
        (4655200, 10120000)
      ∧ roundDown (10126/1000) 2 = 1012/100
      ∧ roundNormal (4567/10000) 2 = 46/100
      ∧ decimalPlaces (1012/100 * (46/100)) = 4)
    ∧ (∀ (size price : ℚ) (ts : TickSize),
        (calculateOrderAmounts .buy size price ts).1 =
          toUnits (adjustAmount
            (roundDown size (configFor ts).size *
              roundNormal price (configFor ts).price)
            (configFor ts).amount))
    ∧ (∀ (raw : ℚ) (limit : ℕ), decimalPlaces raw > limit →
        adjustAmount raw limit =
          if decimalPlaces (roundUp raw (limit + 4)) > limit
          then roundDown (roundUp raw (limit + 4)) limit
          else roundUp raw (limit + 4)) := by
  refine ⟨by decide, fun _ _ _ => rfl, fun raw limit h => ?_⟩
  rw [adjustAmount, if_pos h]

/-- Witness for C1_rounding_pipeline at the raw amount 0.12345 and limit
4, where the round-up attempt at 8 decimals is made and fails, so the
round down at 4 decimals applies. -/
theorem C1_rounding_pipeline_witness :
    adjustAmount (12345/100000) 4 =
      if decimalPlaces (roundUp (12345/100000) 8) > 4
      then roundDown (roundUp (12345/100000) 8) 4
      else roundUp (12345/100000) 8 :=
  C1_rounding_pipeline.2.2 (12345/100000) 4 (by decide)

/-- Claim C3, counterexample: a BUY whose size 0.001 truncates to zero
under tick size 0.01 still produces a signed order with zero maker and
taker amounts; BuildOrder performs no amount validation and returns no
error for it. -/
theorem C3_counterexample :
    roundDown (1/1000) (configFor .t001).size = 0
    ∧ buildOrderCore .buy (1/1000) (1/2) .t001 =
        { makerAmount := 0, takerAmount := 0, side := 0 } := by
  decide

/-- Claim C3, amended: BuildOrder performs no size or price validation:
whenever the size truncates to zero under the tick-size class, the
returned order simply carries zero maker and taker amounts; the only
error return of BuildOrder is the signing step, and private-key parsing
happens in the client constructor, not in BuildOrder. -/
theorem C3_zero_size_zero_order (size price : ℚ) (ts : TickSize)
    (h : roundDown size (configFor ts).size = 0) :
    buildOrderCore .buy size price ts =
      { makerAmount := 0, takerAmount := 0, side := 0 } := by
  have hdp : decimalPlaces 0 = 0 := by decide
  have hU : toUnits 0 = 0 := by decide
  simp only [buildOrderCore, calculateOrderAmounts, h, zero_mul, hdp, hU,
    gt_iff_lt, Nat.not_lt_zero, if_false, ite_false]
  rfl

/-- Witness for C3_zero_size_zero_order: size 0.002 under tick size
0.0001 truncates to zero, and the built order carries zero amounts. -/
theorem C3_zero_size_zero_order_witness :
    buildOrderCore .buy (2/1000) (3/4) .t00001 =
      { makerAmount := 0, takerAmount := 0, side := 0 } :=
  C3_zero_size_zero_order (2/1000) (3/4) .t00001 (by decide)

lemma legPrices_eval (b t : ℚ) (ht0 : 0 < t) :
    legPrices b t =
      ((truncQ ((b + t) / t) : ℚ) * t,
        roundTo (1 - (truncQ ((b + t) / t) : ℚ) * t) 4) := by
  have hn : ¬ t ≤ 0 := not_le.mpr ht0
  have hbuy : toUpperStr "BUY" = "BUY" := by decide
  simp only [legPrices, AlignPrice]
  rw [if_neg hn, if_pos hbuy]

/-- Claim C4, counterexample: with best bid 0.3333 and the positive tick
size 0.00003 the first leg is priced at 0.33333 and the second at 0.6667,
so the two leg prices sum to 1.00003, not 1. -/
theorem C4_counterexample :
    0 < (3/100000 : ℚ)
    ∧ (legPrices (3333/10000) (3/100000)).1 +
        (legPrices (3333/10000) (3/100000)).2 ≠ 1 := by
  decide

/-- Claim C4, amended: for every best bid b ≥ 0 and positive tick size
that is a whole multiple of 0.0001 (as all the exchange tick-size classes
are), with b plus one tick at most 1, the first leg price is b plus one
tick aligned down to tick granularity, the second is 1 minus that price
rounded to 4 decimals, and the two sum to exactly 1. -/
theorem C4_leg_prices_sum (b t : ℚ) (k : ℕ) (hb : 0 ≤ b) (hk : 0 < k)
    (ht : t = (k : ℚ) / 10 ^ (4 : ℕ)) (hbt : b + t ≤ 1) :
    (legPrices b t).1 + (legPrices b t).2 = 1 := by
  have hk0 : (0 : ℚ) < (k : ℚ) := by exact_mod_cast hk
  have ht0 : 0 < t := by rw [ht]; positivity
  rw [legPrices_eval b t ht0]
  dsimp only
  have hq0 : 0 ≤ (b + t) / t := div_nonneg (by linarith) ht0.le
  rw [truncQ_eq_floor hq0]
  set n : ℤ := ⌊(b + t) / t⌋ with hndef
  have hyle : (n : ℚ) * t ≤ b + t := by
    have h1 : (n : ℚ) ≤ (b + t) / t := Int.floor_le _
    have h2 : (n : ℚ) * t ≤ (b + t) / t * t :=
      mul_le_mul_of_nonneg_right h1 ht0.le
    rwa [div_mul_cancel₀ _ ht0.ne'] at h2
  have hy1 : (n : ℚ) * t ≤ 1 := le_trans hyle hbt
  have hzq : (1 - (n : ℚ) * t) * 10 ^ (4 : ℕ) = ((10 ^ 4 - n * k : ℤ) : ℚ) := by
    rw [ht]
    push_cast
    field_simp
    ring
  have hz0 : (0 : ℤ) ≤ 10 ^ 4 - n * k := by
    have h3 : (0 : ℚ) ≤ (1 - (n : ℚ) * t) * 10 ^ (4 : ℕ) := by
      have : (0 : ℚ) ≤ 1 - (n : ℚ) * t := by linarith
      positivity
    rw [hzq] at h3
    exact_mod_cast h3
  have hzq0 : (0 : ℚ) ≤ ((10 ^ 4 - n * k : ℤ) : ℚ) := by exact_mod_cast hz0
  have hround : roundTo (1 - (n : ℚ) * t) 4 = 1 - (n : ℚ) * t := by
    unfold roundTo
    rw [hzq]
    have htr2 : truncQ (((10 ^ 4 - n * k : ℤ) : ℚ) + 1/2) = 10 ^ 4 - n * k := by
      rw [truncQ_eq_floor (add_nonneg hzq0 (by norm_num))]
      rw [Int.floor_int_add]
      norm_num
    rw [htr2, ← hzq]
    field_simp
  rw [hround]
  ring

/-- Witness for C4_leg_prices_sum at best bid 0.46 and tick size 0.01:
the legs price at 0.47 and 0.53 and sum to 1. -/
theorem C4_leg_prices_sum_witness :
    (legPrices (46/100) (1/100)).1 + (legPrices (46/100) (1/100)).2 = 1 :=
  C4_leg_prices_sum (46/100) (1/100) 100 (by norm_num) (by norm_num)
    (by norm_num) (by norm_num)

lemma execLoop_success_step (isRetry : Bool) (a : Attempt)
    (rest : List Attempt) (ia ib : String)
    (hspread : isRetry = true → a.spreadOK = true) (hbal : a.balanceOK = true)
    (hA : a.submitA = some ia) (hB : a.submitB = some ib)
    (hfill : 0 < parseFloatQ a.filledA ∨ 0 < parseFloatQ a.filledB) :
    execLoop isRetry (a :: rest) =
      ([.submit (some ia) (some ib)], .success a.filledA a.filledB) := by
  have h1 : ¬ (isRetry = true ∧ a.spreadOK = false) := by
    rintro ⟨hr, hsf⟩
    rw [hspread hr] at hsf
    exact Bool.noConfusion hsf
  have h2 : ¬ a.balanceOK = false := by simp [hbal]
  conv_lhs => rw [execLoop]
  rw [if_neg h1, if_neg h2, hA, hB]
  dsimp only
  rw [if_pos hfill]

lemma execLoop_nofill_step (isRetry : Bool) (a : Attempt)
    (rest : List Attempt) (ia ib : String)
    (hspread : isRetry = true → a.spreadOK = true) (hbal : a.balanceOK = true)
    (hA : a.submitA = some ia) (hB : a.submitB = some ib)
    (hnf : ¬ (0 < parseFloatQ a.filledA ∨ 0 < parseFloatQ a.filledB)) :
    execLoop isRetry (a :: rest) =
      (.submit (some ia) (some ib) :: .cancel ia ib :: (execLoop true rest).1,
        (execLoop true rest).2) := by
  have h1 : ¬ (isRetry = true ∧ a.spreadOK = false) := by
    rintro ⟨hr, hsf⟩
    rw [hspread hr] at hsf
    exact Bool.noConfusion hsf
  have h2 : ¬ a.balanceOK = false := by simp [hbal]
  conv_lhs => rw [execLoop]
  rw [if_neg h1, if_neg h2, hA, hB]
  dsimp only
  rw [if_neg hnf]

lemma execLoop_abort_step (isRetry : Bool) (a : Attempt)
    (rest : List Attempt)
    (hspread : isRetry = true → a.spreadOK = true) (hbal : a.balanceOK = true)
    (hmix : a.submitA = none ∨ a.submitB = none) :
    execLoop isRetry (a :: rest) =
      (.submit a.submitA a.submitB :: (execLoop true rest).1,
        (execLoop true rest).2) := by
  have h1 : ¬ (isRetry = true ∧ a.spreadOK = false) := by
    rintro ⟨hr, hsf⟩
    rw [hspread hr] at hsf
    exact Bool.noConfusion hsf
  have h2 : ¬ a.balanceOK = false := by simp [hbal]
  conv_lhs => rw [execLoop]
  rw [if_neg h1, if_neg h2]
  rcases hA2 : a.submitA with _ | ia <;> rcases hB2 : a.submitB with _ | ib <;>
    dsimp only <;>
    first
    | rfl
    | simp [hA2, hB2] at hmix

lemma execLoop_exhausts (script : List Attempt) :
    ∀ isRetry : Bool,
    (∀ a ∈ script, a.spreadOK = true ∧ a.balanceOK = true ∧
      a.submitA.isSome = true ∧ a.submitB.isSome = true ∧
      ¬ 0 < parseFloatQ a.filledA ∧ ¬ 0 < parseFloatQ a.filledB) →
    (execLoop isRetry script).2 = .exhausted := by
  induction script with
  | nil => exact fun _ _ => rfl
  | cons a rest ih =>
    intro isRetry h
    obtain ⟨hsp, hbal, hsa, hsb, hfa, hfb⟩ := h a (List.mem_cons_self a rest)
    obtain ⟨ia, hA⟩ := Option.isSome_iff_exists.mp hsa
    obtain ⟨ib, hB⟩ := Option.isSome_iff_exists.mp hsb
    rw [execLoop_nofill_step isRetry a rest ia ib (fun _ => hsp) hbal hA hB
      (not_or.mpr ⟨hfa, hfb⟩)]
    exact ih true (fun a2 ha2 => h a2 (List.mem_cons_of_mem _ ha2))

/-- Claim C5: a positive parsed fill on either leg ends the run at once
with success and the literal size-matched strings, and without a cancel
of either order of that attempt; with no fill the attempt cancels both
orders and continues; when every attempt reaches the fill poll and both
legs parse to zero, the run ends unsuccessfully with the retry-count
message, whose text embeds the decimal retry count. -/
theorem C5_fill_success_and_retry_exhaustion :
    (∀ (a : Attempt) (rest : List Attempt) (ia ib : String),
      a.balanceOK = true → a.submitA = some ia → a.submitB = some ib →
      (0 < parseFloatQ a.filledA ∨ 0 < parseFloatQ a.filledB) →
      strategyExecute (a :: rest) = ⟨true, a.filledA, a.filledB, ""⟩
        ∧ Action.cancel ia ib ∉ strategyActions (a :: rest))
    ∧ (∀ (isRetry : Bool) (a : Attempt) (rest : List Attempt) (ia ib : String),
      (isRetry = true → a.spreadOK = true) → a.balanceOK = true →
      a.submitA = some ia → a.submitB = some ib →
      ¬ (0 < parseFloatQ a.filledA ∨ 0 < parseFloatQ a.filledB) →
      execLoop isRetry (a :: rest) =
        (.submit (some ia) (some ib) :: .cancel ia ib ::
            (execLoop true rest).1,
          (execLoop true rest).2))
    ∧ (∀ script : List Attempt,
      (∀ a ∈ script, a.spreadOK = true ∧ a.balanceOK = true ∧
        a.submitA.isSome = true ∧ a.submitB.isSome = true ∧
        ¬ 0 < parseFloatQ a.filledA ∧ ¬ 0 < parseFloatQ a.filledB) →
      strategyExecute script = ⟨false, "", "", maxRetriesMsg script.length⟩)
    ∧ (∀ n : ℕ, ∃ front back : String,
        maxRetriesMsg n = front ++ toString n ++ back) := by
  refine ⟨?_, ?_, ?_, ?_⟩
  · intro a rest ia ib hbal hA hB hfill
    have hstep := execLoop_success_step false a rest ia ib
      (fun h => Bool.noConfusion h) hbal hA hB hfill
    constructor
    · unfold strategyExecute
      rw [hstep]
    · unfold strategyActions
      rw [hstep]
      simp
  · exact execLoop_nofill_step
  · intro script h
    unfold strategyExecute
    rw [execLoop_exhausts script false h]
  · intro n
    exact ⟨"达到最大重试次数 ", "，未能成交", rfl⟩

/-- Witness for C5_fill_success_and_retry_exhaustion: a single attempt
whose first leg reports 10.5 matched returns success with the literal
strings and no cancel action. -/
theorem C5_fill_success_witness :
    strategyExecute [⟨true, true, some "orderA", some "orderB", "10.5", "0"⟩] =
      ⟨true, "10.5", "0", ""⟩
    ∧ Action.cancel "orderA" "orderB" ∉
        strategyActions
          [⟨true, true, some "orderA", some "orderB", "10.5", "0"⟩] :=
  C5_fill_success_and_retry_exhaustion.1
    ⟨true, true, some "orderA", some "orderB", "10.5", "0"⟩ [] "orderA"
    "orderB" rfl rfl rfl (by decide)

/-- Claim C6, counterexample: a run whose single attempt placed leg A and
failed leg B returns exactly the same Result as a run where both
submissions failed — the one-leg-placed outcome is absent from the
returned Result, which only carries the retry-limit error. -/
theorem C6_counterexample :
    strategyExecute [⟨true, true, some "0xA1", none, "0", "0"⟩] =
      strategyExecute [⟨true, true, none, none, "0", "0"⟩]
    ∧ strategyExecute [⟨true, true, some "0xA1", none, "0", "0"⟩] =
        ⟨false, "", "", maxRetriesMsg 1⟩ := by
  decide

/-- Claim C6, amended: when one leg's submission succeeds and the other
fails, the attempt is aborted with no fill poll and no cancel and the
loop proceeds to the next retry; but the mixed outcome is only written to
the console, not to the returned Result: the Result of such a run is
identical to that of a run in which both submissions failed. -/
theorem C6_partial_not_reported :
    (∀ (isRetry : Bool) (a : Attempt) (rest : List Attempt),
      (isRetry = true → a.spreadOK = true) → a.balanceOK = true →
      (a.submitA = none ∨ a.submitB = none) →
      execLoop isRetry (a :: rest) =
        (.submit a.submitA a.submitB :: (execLoop true rest).1,
          (execLoop true rest).2))
    ∧ (∀ (a a2 : Attempt) (rest : List Attempt),
      a.balanceOK = true → a2.balanceOK = true →
      (a.submitA = none ∨ a.submitB = none) →
      (a2.submitA = none ∨ a2.submitB = none) →
      strategyExecute (a :: rest) = strategyExecute (a2 :: rest)) := by
  constructor
  · exact execLoop_abort_step
  · intro a a2 rest hb1 hb2 hm1 hm2
    have e1 := execLoop_abort_step false a rest
      (fun h => Bool.noConfusion h) hb1 hm1
    have e2 := execLoop_abort_step false a2 rest
      (fun h => Bool.noConfusion h) hb2 hm2
    unfold strategyExecute
    rw [e1, e2]
    simp [List.length_cons]

/-- Witness for C6_partial_not_reported: a run placing only leg A and a
run placing only leg B, followed by the same scripted attempts, return
the same Result. -/
theorem C6_partial_not_reported_witness :
    strategyExecute [⟨true, true, some "0xB7", none, "0", "0"⟩,
        ⟨false, true, some "x1", some "y1", "0", "0"⟩] =
      strategyExecute [⟨true, true, none, some "0xC9", "0", "0"⟩,
        ⟨false, true, some "x1", some "y1", "0", "0"⟩] :=
  C6_partial_not_reported.2
    ⟨true, true, some "0xB7", none, "0", "0"⟩
    ⟨true, true, none, some "0xC9", "0", "0"⟩
    [⟨false, true, some "x1", some "y1", "0", "0"⟩]
    rfl rfl (Or.inr rfl) (Or.inl rfl)

end PA
